import Mathlib

/-!
Verification development for the SPX cost-of-financing rolling fair-value
estimator described in the repository's technical appendix
(`COF/presentation_materials/technical_appendix.md`).

The Python reference code is shallowly embedded over `ℚ`:
* floating-point numbers become rationals (`np.std` comparisons against the
  0.1 stability threshold are expressed through the variance, i.e. the square
  of the standard deviation, compared against 1/100, since square roots do
  not exist in `ℚ`; `std > 0.1 ↔ var > 0.01` because both sides are
  nonnegative);
* `NaN` (the result of aggregating an empty score list) becomes `none` in
  `Option ℚ`;
* Python's raised `ValueError`s become `Except.error` with the raised
  message string;
* `scipy.interpolate.make_smoothing_spline` is an external library call, so
  the spline constructor is a parameter `mk : SplineMaker` threaded through
  the definitions; likewise `np.logspace(4, 7, 30)` produces irrational grid
  points, so the candidate-λ grid is a `List ℚ` parameter;
* Python's `list.sort(key=...)` is a stable ascending sort by key; it is
  embedded as `List.insertionSort` on the key order, which is also stable.
-/

attribute [local semireducible] Rat.add Rat.mul Rat.sub Rat.inv

deriving instance DecidableEq for Except

/-- The type of the external smoothing-spline constructor
(`make_smoothing_spline(X, y, lam)`): from sorted abscissae, ordinates and a
smoothing strength to a fitted curve. -/
def SplineMaker : Type := List ℚ → List ℚ → ℚ → (ℚ → ℚ)

/-- Key order used by `pairs.sort(key=lambda x: x[0])`: compare pairs by
their first (positioning-value) component. -/
def keyLe (a b : ℚ × ℚ) : Prop := a.1 ≤ b.1

instance : DecidableRel keyLe := fun a b => inferInstanceAs (Decidable (a.1 ≤ b.1))

instance : IsTotal (ℚ × ℚ) keyLe := ⟨fun a b => le_total a.1 b.1⟩

instance : IsTrans (ℚ × ℚ) keyLe := ⟨fun _ _ _ h h2 => le_trans h h2⟩

/-- Strict key order, used to compare sorted outputs when keys are distinct. -/
def keyLt (a b : ℚ × ℚ) : Prop := a.1 < b.1

instance : IsAntisymm (ℚ × ℚ) keyLt := ⟨fun _ _ h h2 => absurd h2 (lt_asymm h)⟩

/-- Embeds `pairs = list(zip(X, y)); pairs.sort(key=lambda x: x[0])`: stable
ascending sort of (positioning, cost) pairs by positioning value. -/
def sortPairs (l : List (ℚ × ℚ)) : List (ℚ × ℚ) := List.insertionSort keyLe l

/-- Embeds `is_monotonic(y) = np.all(np.diff(y) >= 0)`: the list is non-decreasing
(vacuously true on empty and singleton arrays). -/
def is_monotonic : List ℚ → Bool
  | [] => true
  | [_] => true
  | a :: b :: t => decide (a ≤ b) && is_monotonic (b :: t)

/-- Embeds `np.min` over a nonempty array (0 as the out-of-domain default). -/
def minQ : List ℚ → ℚ
  | [] => 0
  | x :: xs => xs.foldl min x

/-- Embeds `np.max` over a nonempty array (0 as the out-of-domain default). -/
def maxQ : List ℚ → ℚ
  | [] => 0
  | x :: xs => xs.foldl max x

/-- Embeds `np.linspace(lo, hi, n)`: `n` evenly spaced points from `lo` to `hi`
inclusive. -/
def linspace (lo hi : ℚ) (n : Nat) : List ℚ :=
  if n ≤ 1 then List.replicate n lo
  else (List.range n).map (fun i => lo + (hi - lo) * i / ((n : ℚ) - 1))

/-- The dense probe grid used by `fit_spline` to validate monotonicity of
the fitted curve: the curve evaluated on
`np.linspace(X_sorted.min(), X_sorted.max(), 1000)`. -/
def probeGrid (Xs : List ℚ) (s : ℚ → ℚ) : List ℚ :=
  (linspace (minQ Xs) (maxQ Xs) 1000).map s

/-- Embeds `sklearn.metrics.r2_score(y_true, y_pred)`: `1 - ss_res / ss_tot`
(with `ℚ`'s zero-division-is-zero convention at degenerate inputs). -/
def r2_score (y_true y_pred : List ℚ) : ℚ :=
  1 - ((y_true.zip y_pred).map (fun p => (p.1 - p.2) ^ 2)).sum /
      (y_true.map (fun v => (v - y_true.sum / (y_true.length : ℚ)) ^ 2)).sum

/-- Embeds `sklearn.metrics.mean_squared_error(y_true, y_pred)`. -/
def mean_squared_error (y_true y_pred : List ℚ) : ℚ :=
  ((y_true.zip y_pred).map (fun p => (p.1 - p.2) ^ 2)).sum / (y_true.length : ℚ)

/-- Embeds `np.mean(scores)`: `none` models the `NaN` produced on an empty list. -/
def npMean : List ℚ → Option ℚ
  | [] => none
  | l => some (l.sum / (l.length : ℚ))

/-- The square of `np.std(scores)` (population standard deviation, `ddof=0`);
`none` models the `NaN` produced on an empty list.  The standard deviation
itself is irrational in general, so the embedding carries its square and
compares it against squared thresholds. -/
def npStdSq : List ℚ → Option ℚ
  | [] => none
  | l => some (((l.map (fun x => (x - l.sum / (l.length : ℚ)) ^ 2)).sum) / (l.length : ℚ))

/-- Embeds the `sklearn.model_selection.KFold(n_splits=k, shuffle=False)` fold layout
over `n` samples: `(start, size)` of each contiguous validation block; the
first `n % k` folds get `n / k + 1` samples, the rest `n / k`. -/
def foldStarts (n k : Nat) : List (Nat × Nat) :=
  (List.range k).map (fun i =>
    (i * (n / k) + min i (n % k), n / k + if i < n % k then 1 else 0))

/-- Embeds `kf.split(X)`: the list of `(train_idx, val_idx)` pairs; each validation
block is the contiguous index range of its fold, the training indices are
the complement in `range n`. -/
def kfoldSplit (n k : Nat) : List (List Nat × List Nat) :=
  (foldStarts n k).map (fun st =>
    ((List.range n).filter (fun j => decide (j < st.1) || decide (st.1 + st.2 ≤ j)),
     List.range' st.1 st.2))

/-- Numpy fancy indexing `X[idx]` (0 as the out-of-bounds default). -/
def takeIdx (l : List ℚ) (idx : List Nat) : List ℚ := idx.map (fun i => l.getD i 0)

/-- The value-sorted `(X_train, y_train)` pairs of one fold
(`train_pairs.sort(key=lambda x: x[0])`). -/
def foldTrainPairs (X y : List ℚ) (tv : List Nat × List Nat) : List (ℚ × ℚ) :=
  sortPairs ((takeIdx X tv.1).zip (takeIdx y tv.1))

/-- The value-sorted `(X_val, y_val)` pairs of one fold. -/
def foldValPairs (X y : List ℚ) (tv : List Nat × List Nat) : List (ℚ × ℚ) :=
  sortPairs ((takeIdx X tv.2).zip (takeIdx y tv.2))

/-- The `y_train_sorted` array of one fold: the cost values carried along by the
training-subset sort. -/
def foldTrainSortedY (X y : List ℚ) (tv : List Nat × List Nat) : List ℚ :=
  (foldTrainPairs X y tv).map Prod.snd

/-- The fold's held-out score: fit the curve on the sorted training subset at
the candidate λ and score the held-out validation subset by `r2_score`. -/
def foldScore (mk : SplineMaker) (X y : List ℚ) (lam : ℚ) (tv : List Nat × List Nat) : ℚ :=
  r2_score ((foldValPairs X y tv).map Prod.snd)
    (((foldValPairs X y tv).map Prod.fst).map
      (mk ((foldTrainPairs X y tv).map Prod.fst) ((foldTrainPairs X y tv).map Prod.snd) lam))

/-- The `scores` list accumulated by `cross_validate`'s fold loop: loop over
the contiguous non-shuffled folds, skip (`continue`) a fold whose
value-sorted training costs are not non-decreasing, append the score of each
remaining fold. -/
def cvScoreList (mk : SplineMaker) (X y : List ℚ) (lam : ℚ) (n_splits : Nat) : List ℚ :=
  (kfoldSplit X.length n_splits).foldl
    (fun acc tv =>
      if is_monotonic (foldTrainSortedY X y tv) then acc ++ [foldScore mk X y lam tv]
      else acc) []

/-- Embeds `cross_validate(X, y, lam, n_splits)`: returns
`(np.mean(scores), np.std(scores))` over the kept folds' scores (std carried
as its square; `none` is `NaN`). -/
def cross_validate (mk : SplineMaker) (X y : List ℚ) (lam : ℚ) (n_splits : Nat) :
    Option ℚ × Option ℚ :=
  (npMean (cvScoreList mk X y lam n_splits), npStdSq (cvScoreList mk X y lam n_splits))

/-- First index of the maximum of a nonempty rational array
(`np.argmax` on a NaN-free array returns the first occurrence of the
maximum). -/
def argmaxQ (l : List ℚ) : Nat := l.findIdx (fun x => x == maxQ l)

/-- Embeds `np.argmax` over possibly-NaN entries: numpy returns the index of the
first NaN when one is present, otherwise the first index of the maximum. -/
def npArgmax (l : List (Option ℚ)) : Nat :=
  if l.any (fun o => o == none) then l.findIdx (fun o => o == none)
  else argmaxQ (l.filterMap id)

/-- The `cv_scores` list: mean cross-validation score per candidate λ of the grid. -/
def cvScores (mk : SplineMaker) (grid X y : List ℚ) (n_splits : Nat) : List (Option ℚ) :=
  grid.map (fun s => (cross_validate mk X y s n_splits).1)

/-- The `cv_stds` list: cross-validation score dispersion per candidate λ of the grid
(squared standard deviation, see `npStdSq`). -/
def cvStds (mk : SplineMaker) (grid X y : List ℚ) (n_splits : Nat) : List (Option ℚ) :=
  grid.map (fun s => (cross_validate mk X y s n_splits).2)

/-- Embeds `best_s_idx = np.argmax(cv_scores)`. -/
def bestIdx (mk : SplineMaker) (grid X y : List ℚ) (n_splits : Nat) : Nat :=
  npArgmax (cvScores mk grid X y n_splits)

/-- Whether `warnings.warn("High cross-validation variance")` fires:
`cv_stds[best_s_idx] > 0.1` on the standard deviation, i.e. the squared
dispersion exceeds `1/100` (a NaN dispersion compares false). -/
def stabilityWarn (mk : SplineMaker) (grid X y : List ℚ) (n_splits : Nat) : Bool :=
  match (cvStds mk grid X y n_splits).getD (bestIdx mk grid X y n_splits) none with
  | none => false
  | some v => decide (1 / 100 < v)

/-- Embeds `find_optimal_smoothing(X, y)`: cross-validate every candidate λ of the
grid, pick `smoothing_factors[np.argmax(cv_scores)]`, and emit the stability
warning flag; the chosen λ is returned whether or not the warning fires.
(The concrete grid `np.logspace(4, 7, 30)` has irrational entries, so the
grid is a parameter here.) -/
def find_optimal_smoothing (mk : SplineMaker) (grid X y : List ℚ) (n_splits : Nat) : ℚ × Bool :=
  ((grid.getD (bestIdx mk grid X y n_splits) 0), stabilityWarn mk grid X y n_splits)

/-- Embeds `fit_spline(X, y, smoothing_param)`: pair and value-sort the data, raise
on non-monotone sorted costs, fit the spline, probe the fitted curve on 1000
evenly spaced points across the sorted abscissa range, raise if the probe is
not non-decreasing, otherwise return the spline. -/
def fit_spline (mk : SplineMaker) (X y : List ℚ) (lam : ℚ) : Except String (ℚ → ℚ) :=
  if !(is_monotonic ((sortPairs (X.zip y)).map Prod.snd)) then
    Except.error "Data violates monotonicity constraint"
  else
    if !(is_monotonic (probeGrid ((sortPairs (X.zip y)).map Prod.fst)
        (mk ((sortPairs (X.zip y)).map Prod.fst) ((sortPairs (X.zip y)).map Prod.snd) lam))) then
      Except.error "Spline violates monotonicity constraint"
    else
      Except.ok (mk ((sortPairs (X.zip y)).map Prod.fst) ((sortPairs (X.zip y)).map Prod.snd) lam)

/-- One row of the `results` DataFrame built by `rolling_window_analysis`
(`date` is the positional index `i` of the window's last observation). -/
structure WindowResult where
  date : Nat
  cof_actual : ℚ
  cof_predicted : ℚ
  smoothing : ℚ
  r2 : ℚ
  mse : ℚ
deriving DecidableEq, Repr

/-- Python `range(a, b)`. -/
def pyRange (a b : Nat) : List Nat := List.range' a (b - a)

/-- Embeds `data.iloc[i - window_size : i + 1]`: the slice the rolling loop hands to
each fit (note: `window_size + 1` rows, indices `i - window_size … i`). -/
def windowSlice (data : List (ℚ × ℚ)) (i window_size : Nat) : List (ℚ × ℚ) :=
  (data.drop (i - window_size)).take (window_size + 1)

/-- The body of the rolling loop at window position `i`: value-sort the
window's (positioning, cost) pairs, skip (`continue`, emitting nothing) when
the sorted costs are not non-decreasing, otherwise choose λ, fit the spline
(whose `ValueError` propagates and aborts the run), and build the result row
from the value-sorted arrays: `cof_actual = y_sorted[-1]`,
`cof_predicted = y_pred[-1]`. -/
def rollingStep (mk : SplineMaker) (grid : List ℚ) (data : List (ℚ × ℚ))
    (window_size i : Nat) : Except String (Option WindowResult) :=
  if !(is_monotonic ((sortPairs (windowSlice data i window_size)).map Prod.snd)) then
    Except.ok none
  else
    match fit_spline mk ((sortPairs (windowSlice data i window_size)).map Prod.fst)
        ((sortPairs (windowSlice data i window_size)).map Prod.snd)
        (find_optimal_smoothing mk grid
          ((sortPairs (windowSlice data i window_size)).map Prod.fst)
          ((sortPairs (windowSlice data i window_size)).map Prod.snd) 10).1 with
    | Except.error e => Except.error e
    | Except.ok spline =>
      Except.ok (some
        { date := i
          cof_actual := ((sortPairs (windowSlice data i window_size)).map Prod.snd).getLastD 0
          cof_predicted :=
            ((((sortPairs (windowSlice data i window_size)).map Prod.fst).map spline)).getLastD 0
          smoothing := (find_optimal_smoothing mk grid
            ((sortPairs (windowSlice data i window_size)).map Prod.fst)
            ((sortPairs (windowSlice data i window_size)).map Prod.snd) 10).1
          r2 := r2_score ((sortPairs (windowSlice data i window_size)).map Prod.snd)
            (((sortPairs (windowSlice data i window_size)).map Prod.fst).map spline)
          mse := mean_squared_error ((sortPairs (windowSlice data i window_size)).map Prod.snd)
            (((sortPairs (windowSlice data i window_size)).map Prod.fst).map spline) })

/-- Embeds `rolling_window_analysis(data, window_size)`: `for i in
range(window_size, len(data))`, run the loop body, appending each emitted
row; an uncaught `ValueError` from `fit_spline` aborts the whole run. -/
def rolling_window_analysis (mk : SplineMaker) (grid : List ℚ) (data : List (ℚ × ℚ))
    (window_size : Nat) : Except String (List WindowResult) :=
  (pyRange window_size data.length).foldlM
    (fun acc i =>
      match rollingStep mk grid data window_size i with
      | Except.error e => Except.error e
      | Except.ok none => Except.ok acc
      | Except.ok (some r) => Except.ok (acc ++ [r])) []

/-- Forward-fill pass carrying the last seen value (`pandas.DataFrame.ffill`
on one column); a leading missing run stays missing. -/
def ffillAux : Option ℚ → List (Option ℚ) → List (Option ℚ)
  | _, [] => []
  | last, none :: rest => last :: ffillAux last rest
  | _, some v :: rest => some v :: ffillAux (some v) rest

/-- Embeds `data.ffill()` on one column. -/
def ffill (l : List (Option ℚ)) : List (Option ℚ) := ffillAux none l

/-- Date order on rows `(date, positioning, cost)` used by
`data.sort_index()` (a stable sort). -/
def dateLe (a b : Nat × Option ℚ × Option ℚ) : Prop := a.1 ≤ b.1

instance : DecidableRel dateLe := fun a b => inferInstanceAs (Decidable (a.1 ≤ b.1))

/-- IEEE-style `<` on possibly-missing floats: any comparison against NaN is
false. -/
def optLt (a b : Option ℚ) : Bool :=
  match a, b with
  | some x, some y => decide (x < y)
  | _, _ => false

/-- Key comparison for `pairs.sort(key=lambda x: x[0])` on possibly-missing
keys.  (CPython's sort order is unspecified when NaN keys are present, since
NaN is incomparable; the embedding fixes one refinement: NaN keys compare as
`≤` everything.  No claim below depends on the placement of NaN keys.) -/
def optKeyLe (a b : Option ℚ × Option ℚ) : Prop :=
  match a.1, b.1 with
  | some x, some y => x ≤ y
  | _, _ => True

instance : DecidableRel optKeyLe := fun a b => by
  unfold optKeyLe
  rcases a with ⟨_ | x, _⟩ <;> rcases b with ⟨_ | y, _⟩ <;> simp <;> infer_instance

/-- The value-sort of `process_data`'s `(cftc_positions, cof)` pairs. -/
def sortPairsOpt (l : List (Option ℚ × Option ℚ)) : List (Option ℚ × Option ℚ) :=
  List.insertionSort optKeyLe l

/-- The `for i in range(1, len(pairs))` check of `process_data`: true when
`pairs[i][1] < pairs[i-1][1]` for some adjacent pair. -/
def violatesMono (ys : List (Option ℚ)) : Bool :=
  (ys.zip ys.tail).any (fun p => optLt p.2 p.1)

/-- Embeds `process_data(data)`: forward-fill missing values (unconditionally, with
no gap bound), sort by date, value-sort the `(cftc_positions, cof)` pairs and
raise `ValueError("Data violates monotonicity constraint")` when an adjacent
sorted cost pair decreases; otherwise return the filled, date-sorted data. -/
def process_data (rows : List (Nat × Option ℚ × Option ℚ)) :
    Except String (List (Nat × Option ℚ × Option ℚ)) :=
  if violatesMono
      ((sortPairsOpt
        (((List.insertionSort dateLe
            ((rows.map (fun r => r.1)).zip
              ((ffill (rows.map (fun r => r.2.1))).zip
                (ffill (rows.map (fun r => r.2.2)))))).map
          (fun r => (r.2.1, r.2.2))))).map Prod.snd) then
    Except.error "Data violates monotonicity constraint"
  else
    Except.ok
      (List.insertionSort dateLe
        ((rows.map (fun r => r.1)).zip
          ((ffill (rows.map (fun r => r.2.1))).zip
            (ffill (rows.map (fun r => r.2.2))))))

/-- A degenerate but admissible spline constructor (the externally fitted
curve is opaque to this development): the constant-zero curve.  Used to
instantiate `SplineMaker` in concrete evaluations. -/
def mkZero : SplineMaker := fun _ _ _ => fun _ => 0

/-- Concrete dataset for the rolling-loop evaluations: `(positioning, cost)`
rows indexed by position; the latest row of the first window does not carry
the largest positioning value. -/
def dataSwap : List (ℚ × ℚ) := [(0, 0), (2, 2), (1, 1)]

/-- Concrete dataset whose middle window (positions 1–2 of the value-sorted
costs) violates monotonicity while the neighbouring windows do not. -/
def dataSkip : List (ℚ × ℚ) := [(0, 0), (1, 1), (2, 1 / 2), (3, 2)]

/-- Concrete dataset for the window-slice evaluations. -/
def dataSlice : List (ℚ × ℚ) := [(0, 0), (1, 1), (2, 2), (3, 3)]

/-- A row sequence with one long missing run: one observed row followed by
`g` fully missing rows. -/
def gapRows : Nat → Nat → List (Nat × Option ℚ × Option ℚ)
  | _, 0 => []
  | d, g + 1 => (d, none, none) :: gapRows (d + 1) g

/-- Input whose missing-value run has length `g`. -/
def gapInput (g : Nat) : List (Nat × Option ℚ × Option ℚ) :=
  (0, some 0, some 0) :: gapRows 1 g

/-- A row sequence filled: what `ffill` makes of `gapRows`. -/
def gapFilledRows : Nat → Nat → List (Nat × Option ℚ × Option ℚ)
  | _, 0 => []
  | d, g + 1 => (d, some 0, some 0) :: gapFilledRows (d + 1) g

/-- The rows of `gapInput g` after forward filling: every missing value filled. -/
def gapFilled (g : Nat) : List (Nat × Option ℚ × Option ℚ) :=
  (0, some 0, some 0) :: gapFilledRows 1 g

theorem foldl_if_append {α β : Type} (p : α → Bool) (f : α → β) (l : List α) :
    ∀ acc : List β,
      l.foldl (fun a x => if p x then a ++ [f x] else a) acc = acc ++ (l.filter p).map f := by
  induction l with
  | nil => intro acc; simp
  | cons x t ih =>
    intro acc
    rw [List.foldl_cons, List.filter_cons]
    by_cases h : p x
    · rw [if_pos h, if_pos h, ih]
      simp
    · rw [if_neg h, if_neg h, ih]

theorem le_foldl_max_init (t : List ℚ) : ∀ a : ℚ, a ≤ t.foldl max a := by
  induction t with
  | nil => intro a; simp
  | cons b t ih =>
    intro a
    exact le_trans (le_max_left a b) (ih (max a b))

theorem le_foldl_max_mem (t : List ℚ) : ∀ (a x : ℚ), x ∈ t → x ≤ t.foldl max a := by
  induction t with
  | nil => intro a x hx; cases hx
  | cons b t ih =>
    intro a x hx
    rcases List.mem_cons.mp hx with rfl | hx
    · exact le_trans (le_max_right a x) (le_foldl_max_init t (max a x))
    · exact ih (max a b) x hx

theorem foldl_max_mem (t : List ℚ) : ∀ a : ℚ, t.foldl max a = a ∨ t.foldl max a ∈ t := by
  induction t with
  | nil => intro a; left; rfl
  | cons b t ih =>
    intro a
    rcases ih (max a b) with h | h
    · rcases max_choice a b with hm | hm
      · left; rw [List.foldl_cons, h, hm]
      · right; rw [List.foldl_cons, h, hm]; exact List.mem_cons_self b t
    · right; exact List.mem_cons_of_mem b h

theorem maxQ_mem (l : List ℚ) (h : l ≠ []) : maxQ l ∈ l := by
  match l with
  | [] => exact absurd rfl h
  | x :: xs =>
    rcases foldl_max_mem xs x with hm | hm
    · rw [maxQ, hm]; exact List.mem_cons_self x xs
    · exact List.mem_cons_of_mem x hm

theorem le_maxQ (l : List ℚ) (x : ℚ) (hx : x ∈ l) : x ≤ maxQ l := by
  match l with
  | [] => cases hx
  | a :: t =>
    rcases List.mem_cons.mp hx with rfl | hx
    · exact le_foldl_max_init t x
    · exact le_foldl_max_mem t a x hx

theorem argmaxQ_lt_length (l : List ℚ) (h : l ≠ []) : argmaxQ l < l.length :=
  List.findIdx_lt_length.mpr ⟨maxQ l, maxQ_mem l h, beq_self_eq_true (maxQ l)⟩

theorem getD_argmaxQ (l : List ℚ) (h : l ≠ []) : l.getD (argmaxQ l) 0 = maxQ l := by
  rw [List.getD_eq_getElem l 0 (argmaxQ_lt_length l h)]
  exact eq_of_beq (List.findIdx_getElem (w := argmaxQ_lt_length l h))

theorem eq_filterMap_of_all_isSome (l : List (Option ℚ)) (h : ∀ o ∈ l, o.isSome = true) :
    l = (l.filterMap id).map some := by
  induction l with
  | nil => rfl
  | cons o t ih =>
    obtain ⟨v, rfl⟩ := Option.isSome_iff_exists.mp (h o (List.mem_cons_self o t))
    rw [List.filterMap_cons]
    simp only [id]
    rw [List.map_cons]
    exact congrArg (some v :: ·) (ih (fun o ho => h o (List.mem_cons_of_mem _ ho)))

theorem any_beq_none_eq_false (l : List (Option ℚ)) (h : ∀ o ∈ l, o.isSome = true) :
    (l.any (fun o => o == none)) = false := by
  rw [List.any_eq_false]
  intro o ho
  obtain ⟨v, rfl⟩ := Option.isSome_iff_exists.mp (h o ho)
  simp

theorem sorted_keyLt_of_sorted_keyLe (l : List (ℚ × ℚ)) (hs : List.Sorted keyLe l)
    (hnd : (l.map Prod.fst).Nodup) : List.Sorted keyLt l := by
  have hne : List.Pairwise (fun a b : ℚ × ℚ => a.1 ≠ b.1) l := List.pairwise_map.mp hnd
  exact (hs.and hne).imp (fun h => lt_of_le_of_ne h.1 h.2)

theorem process_data_error_eq (rows : List (Nat × Option ℚ × Option ℚ)) (e : String)
    (h : process_data rows = Except.error e) : e = "Data violates monotonicity constraint" := by
  unfold process_data at h
  split at h
  · exact (Except.error.inj h).symm
  · cases h

/-- Claim C1 (amended): sorting the (positioning, cost) pairs by positioning
value carries each cost along with its key, so the sorted pair sequence is
the same multiset of pairs as the input for every input; and whenever the
positioning values are pairwise distinct, the sorted sequence is identical
for all permutations of the input order.  (Without distinctness the sorted
sequence can depend on the input order, because the sort is stable and ties
keep their relative input order.) -/
theorem sortPairs_perm_and_order_independent (l₁ l₂ : List (ℚ × ℚ)) (hp : l₁.Perm l₂) :
    (sortPairs l₁).Perm l₁ ∧
    ((l₁.map Prod.fst).Nodup → sortPairs l₁ = sortPairs l₂) := by
  refine ⟨List.perm_insertionSort keyLe l₁, fun hnd => ?_⟩
  have p₁ : (sortPairs l₁).Perm l₁ := List.perm_insertionSort keyLe l₁
  have p₂ : (sortPairs l₂).Perm l₂ := List.perm_insertionSort keyLe l₂
  have hnd₁ : ((sortPairs l₁).map Prod.fst).Nodup := ((p₁.map Prod.fst).nodup_iff).mpr hnd
  have hnd₂ : ((sortPairs l₂).map Prod.fst).Nodup :=
    ((p₂.map Prod.fst).nodup_iff).mpr (((hp.map Prod.fst).nodup_iff).mp hnd)
  exact List.eq_of_perm_of_sorted (p₁.trans (hp.trans p₂.symm))
    (sorted_keyLt_of_sorted_keyLe _ (List.sorted_insertionSort keyLe l₁) hnd₁)
    (sorted_keyLt_of_sorted_keyLe _ (List.sorted_insertionSort keyLe l₂) hnd₂)

/-- Claim C1 (counterexample): two order-permutations of the same
observations with a duplicated positioning value sort to different pair
sequences, so the sorted pair sequence is not identical for all permutations
of the input order. -/
theorem sortPairs_counterexample :
    ([((1 : ℚ), (5 : ℚ)), (1, 3)]).Perm [((1 : ℚ), (3 : ℚ)), (1, 5)] ∧
    sortPairs [((1 : ℚ), (5 : ℚ)), (1, 3)] ≠ sortPairs [((1 : ℚ), (3 : ℚ)), (1, 5)] := by
  decide

/-- Claim C1 (witness): the amended statement applied at a concrete
permutation pair with distinct positioning values. -/
theorem sortPairs_perm_witness :
    (sortPairs [((0 : ℚ), (1 : ℚ)), (1, 2)]).Perm [((0 : ℚ), (1 : ℚ)), (1, 2)] ∧
    sortPairs [((0 : ℚ), (1 : ℚ)), (1, 2)] = sortPairs [((1 : ℚ), (2 : ℚ)), (0, 1)] :=
  ⟨(sortPairs_perm_and_order_independent [(0, 1), (1, 2)] [(1, 2), (0, 1)] (by decide)).1,
   (sortPairs_perm_and_order_independent [(0, 1), (1, 2)] [(1, 2), (0, 1)] (by decide)).2
     (by decide)⟩

/-- Claim C3 (amended): the rolling loop visits exactly the window positions
`i` with `window_size ≤ i < N`, advancing one period at a time, and at each
position it extracts the trailing `window_size + 1` observations — indices
`i - window_size` through `i` inclusive (`data.iloc[i-window_size : i+1]`)
— not `window_size` of them. -/
theorem rolling_window_bounds (data : List (ℚ × ℚ)) (w N i : Nat) :
    (i ∈ pyRange w N ↔ w ≤ i ∧ i < N) ∧
    (w ≤ i → i < data.length →
      (windowSlice data i w).length = w + 1 ∧
      windowSlice data i w = (data.take (i + 1)).drop (i - w)) := by
  constructor
  · unfold pyRange
    rw [List.mem_range'_1]
    omega
  · intro hwi hiN
    constructor
    · unfold windowSlice
      rw [List.length_take, List.length_drop, min_eq_left (by omega)]
    · unfold windowSlice
      rw [List.drop_take]
      congr 1
      omega

/-- Claim C3 (counterexample): with `window_size = 2` the slice handed to the
fit at position `i = 2` holds three observations, not two. -/
theorem windowSlice_counterexample :
    windowSlice dataSlice 2 2 = [(0, 0), (1, 1), (2, 2)] ∧
    (windowSlice dataSlice 2 2).length ≠ 2 := by decide

/-- Claim C3 (witness): the amended statement applied at a concrete window
position. -/
theorem rolling_window_bounds_witness :
    (windowSlice dataSlice 2 2).length = 2 + 1 ∧
    windowSlice dataSlice 2 2 = (dataSlice.take 3).drop 0 :=
  (rolling_window_bounds dataSlice 2 4 2).2 (by decide) (by decide)

/-- Claim C7 (amended): a window whose value-sorted cost sequence decreases
at some point is skipped without aborting the run, and nothing is emitted
for that window position — the loop body returns no error and no result row
(the output series simply has no entry for that window; no previous λ or
fit is carried forward into it). -/
theorem rollingStep_skips_nonmonotone (mk : SplineMaker) (grid : List ℚ)
    (data : List (ℚ × ℚ)) (w i : Nat)
    (h : is_monotonic ((sortPairs (windowSlice data i w)).map Prod.snd) = false) :
    rollingStep mk grid data w i = Except.ok none := by
  unfold rollingStep
  rw [h]
  rfl

/-- Claim C7 (witness): the amended statement applied at the concrete
violating window of `dataSkip`. -/
theorem rollingStep_skips_witness : rollingStep mkZero [1] dataSkip 1 2 = Except.ok none :=
  rollingStep_skips_nonmonotone mkZero [1] dataSkip 1 2 (by decide)

/-- Claim C10: when every fold's value-sorted training subset violates
monotonicity, all folds are skipped and `cross_validate` returns the
aggregates of the empty score list — NaN mean and NaN standard deviation
(`none` in this embedding) — with no error raised. -/
theorem cross_validate_all_skipped_nan (mk : SplineMaker) (X y : List ℚ) (lam : ℚ) (k : Nat)
    (h : ∀ tv ∈ kfoldSplit X.length k, is_monotonic (foldTrainSortedY X y tv) = false) :
    cross_validate mk X y lam k = (none, none) := by
  have hnil : cvScoreList mk X y lam k = [] := by
    unfold cvScoreList
    rw [foldl_if_append]
    have : (kfoldSplit X.length k).filter
        (fun tv => is_monotonic (foldTrainSortedY X y tv)) = [] := by
      rw [List.filter_eq_nil_iff]
      intro tv htv
      rw [h tv htv]
      exact Bool.false_ne_true
    rw [this]
    rfl
  unfold cross_validate
  rw [hnil]
  rfl

/-- Claim C10 (witness): a dataset `(X, y) = ([0,1,2,3], [1,0,1,0])` whose
two folds both have non-monotone sorted training costs. -/
theorem cross_validate_all_skipped_witness :
    cross_validate mkZero [0, 1, 2, 3] [1, 0, 1, 0] 1 2 = (none, none) :=
  cross_validate_all_skipped_nan mkZero [0, 1, 2, 3] [1, 0, 1, 0] 1 2 (by decide)

/-- Claim C8 (amended): `process_data` forward-fills missing values with no
gap bound at all — a missing run of every length `g` is filled from the last
prior value — and it never fails with a gap error: its only failure mode is
the monotonicity `ValueError`; no `DataGapError` exists in the code. -/
theorem process_data_fill_unbounded :
    (∀ (rows : List (Nat × Option ℚ × Option ℚ)) (e : String),
      process_data rows = Except.error e → e = "Data violates monotonicity constraint") ∧
    (∀ (v : ℚ) (g : Nat) (rest : List (Option ℚ)),
      ffillAux (some v) (List.replicate g none ++ rest) =
        List.replicate g (some v) ++ ffillAux (some v) rest) := by
  constructor
  · exact process_data_error_eq
  · intro v g
    induction g with
    | zero => intro rest; rfl
    | succ n ih =>
      intro rest
      rw [List.replicate_succ, List.replicate_succ, List.cons_append, List.cons_append]
      exact congrArg (some v :: ·) (ih rest)

set_option maxRecDepth 20000 in
/-- Claim C8 (counterexample): an input whose missing-value run has length
100 — far beyond any plausible fill tolerance — is processed successfully, every
missing value forward-filled, instead of failing with a `DataGapError`. -/
theorem process_data_fills_long_gap :
    process_data (gapInput 100) = Except.ok (gapFilled 100) := by decide

/-- Claim C8 (witness): the amended statement applied at concrete inputs. -/
theorem process_data_fill_unbounded_witness :
    ("Data violates monotonicity constraint" : String) = "Data violates monotonicity constraint" ∧
    ffillAux (some 3) (List.replicate 7 none ++ [some 1]) =
      List.replicate 7 (some 3) ++ ffillAux (some 3) [some 1] :=
  ⟨process_data_fill_unbounded.1 [(0, some 0, some 1), (1, some 1, some 0)]
      "Data violates monotonicity constraint" (by decide),
   process_data_fill_unbounded.2 3 7 [some 1]⟩

/-- Claim C9 (amended): the monotonicity `ValueError` raised by data
validation is a fixed constant message; it carries no date, window or index
information, so any two monotonicity failures — whatever their offending
index pairs — produce the identical error value. -/
theorem process_data_error_carries_no_identifier
    (rows₁ rows₂ : List (Nat × Option ℚ × Option ℚ)) (e₁ e₂ : String)
    (h₁ : process_data rows₁ = Except.error e₁) (h₂ : process_data rows₂ = Except.error e₂) :
    e₁ = e₂ := by
  rw [process_data_error_eq rows₁ e₁ h₁, process_data_error_eq rows₂ e₂ h₂]

/-- Claim C9 (counterexample): two inputs whose monotonicity violations sit
at different index pairs of the value-sorted cost sequence (positions 0–1 in
the first input, 1–2 in the second) raise the very same error value, so the
error identifies no offending index pair. -/
theorem process_data_error_collision :
    process_data [(0, some 0, some 1), (1, some 1, some 0), (2, some 2, some 2)] =
      Except.error "Data violates monotonicity constraint" ∧
    process_data [(0, some 0, some 0), (1, some 1, some 2), (2, some 2, some 1)] =
      process_data [(0, some 0, some 1), (1, some 1, some 0), (2, some 2, some 2)] := by
  decide

/-- Claim C9 (witness): the amended statement applied at two concrete
failing inputs. -/
theorem process_data_error_no_identifier_witness :
    ("Data violates monotonicity constraint" : String) = "Data violates monotonicity constraint" :=
  process_data_error_carries_no_identifier
    [(0, some 0, some 1), (1, some 1, some 0), (2, some 2, some 2)]
    [(0, some 0, some 0), (1, some 1, some 2), (2, some 2, some 1)]
    "Data violates monotonicity constraint" "Data violates monotonicity constraint"
    (by decide) (by decide)

/-- Claim C6: cross-validation iterates over the contiguous `KFold` blocks
(each fold's validation indices are the contiguous range given by the fold
layout); every fold whose value-sorted training costs are not non-decreasing
is skipped and contributes no score, every remaining fold contributes its
held-out coefficient-of-determination score, and the returned mean and
standard deviation aggregate exactly the remaining folds' scores. -/
theorem cross_validate_aggregates_kept_folds (mk : SplineMaker) (X y : List ℚ) (lam : ℚ)
    (k : Nat) :
    cross_validate mk X y lam k =
      (npMean (((kfoldSplit X.length k).filter
          (fun tv => is_monotonic (foldTrainSortedY X y tv))).map (foldScore mk X y lam)),
       npStdSq (((kfoldSplit X.length k).filter
          (fun tv => is_monotonic (foldTrainSortedY X y tv))).map (foldScore mk X y lam))) ∧
    (kfoldSplit X.length k).map Prod.snd =
      (foldStarts X.length k).map (fun st => List.range' st.1 st.2) := by
  constructor
  · have hs : cvScoreList mk X y lam k =
        ((kfoldSplit X.length k).filter
          (fun tv => is_monotonic (foldTrainSortedY X y tv))).map (foldScore mk X y lam) := by
      unfold cvScoreList
      rw [foldl_if_append]
      rfl
    unfold cross_validate
    rw [hs]
  · unfold kfoldSplit
    rw [List.map_map]
    rfl

/-- Claim C4: `fit_spline` never returns a spline that fails the dense
monotonicity probe — whenever it returns a curve, evaluating that curve at
the 1000 evenly spaced probe points across the window's sorted
positioning-value range yields a non-decreasing sequence; and when the probe
of the fitted curve is not non-decreasing, `fit_spline` raises instead of
returning. -/
theorem fit_spline_probe_monotone (mk : SplineMaker) (X y : List ℚ) (lam : ℚ) :
    (∀ s, fit_spline mk X y lam = Except.ok s →
      is_monotonic (probeGrid ((sortPairs (X.zip y)).map Prod.fst) s) = true) ∧
    (is_monotonic (probeGrid ((sortPairs (X.zip y)).map Prod.fst)
        (mk ((sortPairs (X.zip y)).map Prod.fst) ((sortPairs (X.zip y)).map Prod.snd) lam))
          = false →
      ∃ e, fit_spline mk X y lam = Except.error e) := by
  constructor
  · intro s hs
    unfold fit_spline at hs
    split at hs
    · cases hs
    · split at hs
      · cases hs
      · rename_i hprobe
        rw [Bool.not_eq_true', Bool.not_eq_false] at hprobe
        rw [← Except.ok.inj hs]
        exact hprobe
  · intro hprobe
    unfold fit_spline
    split
    · exact ⟨"Data violates monotonicity constraint", rfl⟩
    · rw [if_pos]
      · exact ⟨"Spline violates monotonicity constraint", rfl⟩
      · rw [hprobe]
        rfl

set_option maxRecDepth 20000 in
/-- Claim C4 (witness): the invariant applied to a concrete successful fit
(the constant-zero curve on a single observation). -/
theorem fit_spline_probe_monotone_witness :
    is_monotonic (probeGrid ((sortPairs (([(0 : ℚ)]).zip [(0 : ℚ)])).map Prod.fst)
      (fun _ => 0)) = true :=
  (fit_spline_probe_monotone mkZero [0] [0] 1).1 (fun _ => 0) rfl

set_option maxRecDepth 20000 in
/-- Claim C2: the rolling loop records `cof_actual = y_sorted[-1]` and
`cof_predicted = y_pred[-1]` from the value-sorted arrays, i.e. the cost and
prediction belonging to the largest positioning value in the window — not
the window's most recent observation.  On `dataSwap` the latest observation
(index 2) is `(positioning 1, cost 1)`, yet the emitted row (dated 2)
reports `cof_actual = 2`, the cost paired with the largest positioning
value, and evaluates the curve at that largest value. -/
theorem rolling_records_value_sorted_last :
    rolling_window_analysis mkZero [1] dataSwap 2 =
      Except.ok [{ date := 2, cof_actual := 2, cof_predicted := 0, smoothing := 1,
                   r2 := -3 / 2, mse := 5 / 3 }] ∧
    (dataSwap.getD 2 (0, 0)).1 = 1 ∧ (dataSwap.getD 2 (0, 0)).2 = 1 ∧ ((2 : ℚ) ≠ 1) := by
  decide

set_option maxRecDepth 20000 in
/-- Claim C7 (counterexample): on `dataSkip` with `window_size = 1` the
window at position 2 violates monotonicity; the run completes without
aborting, but the output contains rows only for window positions 1 and 3 —
there is no entry for position 2 carrying the prior λ or prior predicted
value. -/
theorem rolling_skipped_window_has_no_entry :
    (rolling_window_analysis mkZero [1] dataSkip 1).map (fun l => l.map (fun r => r.date)) =
      Except.ok [1, 3] ∧
    is_monotonic ((sortPairs (windowSlice dataSkip 2 1)).map Prod.snd) = false := by
  decide

theorem map_getD_eq (g : ℚ → Option ℚ) (grid : List ℚ) (i : Nat) (h : i < grid.length) :
    (grid.map g).getD i none = g (grid.getD i 0) := by
  rw [List.getD_eq_getElem _ _ (by rw [List.length_map]; exact h),
    List.getD_eq_getElem _ _ h, List.getElem_map]

theorem map_some_getD_eq (vals : List ℚ) (i : Nat) (h : i < vals.length) :
    (vals.map some).getD i none = some (vals.getD i 0) := by
  rw [List.getD_eq_getElem _ _ (by rw [List.length_map]; exact h),
    List.getD_eq_getElem _ _ h, List.getElem_map]

theorem getD_mem_of_lt (vals : List ℚ) (i : Nat) (h : i < vals.length) : vals.getD i 0 ∈ vals := by
  rw [List.getD_eq_getElem _ _ h]
  exact List.getElem_mem h

theorem map_eq_filterMap_map_some (f : ℚ → Option ℚ) (grid : List ℚ)
    (hdef : ∀ s ∈ grid, (f s).isSome = true) :
    grid.map f = ((grid.map f).filterMap id).map some := by
  refine eq_filterMap_of_all_isSome _ ?_
  intro o ho
  obtain ⟨s, hs, rfl⟩ := List.mem_map.mp ho
  exact hdef s hs

theorem npArgmax_map_eq_argmax (f : ℚ → Option ℚ) (grid : List ℚ)
    (hdef : ∀ s ∈ grid, (f s).isSome = true) :
    npArgmax (grid.map f) = argmaxQ ((grid.map f).filterMap id) := by
  unfold npArgmax
  have h : ((grid.map f).any (fun o => o == none)) = false := by
    refine any_beq_none_eq_false _ ?_
    intro o ho
    obtain ⟨s, hs, rfl⟩ := List.mem_map.mp ho
    exact hdef s hs
  rw [h]
  simp

theorem argmax_map_mem_and_le (f : ℚ → Option ℚ) (grid : List ℚ) (hne : grid ≠ [])
    (hdef : ∀ s ∈ grid, (f s).isSome = true) :
    npArgmax (grid.map f) < grid.length ∧
    grid.getD (npArgmax (grid.map f)) 0 ∈ grid ∧
    ∀ s ∈ grid, (f s).getD 0 ≤ (f (grid.getD (npArgmax (grid.map f)) 0)).getD 0 := by
  have hrepr : grid.map f = ((grid.map f).filterMap id).map some :=
    map_eq_filterMap_map_some f grid hdef
  have hvne : (grid.map f).filterMap id ≠ [] := by
    intro hv
    rw [hv] at hrepr
    simp only [List.map_nil] at hrepr
    exact hne (by simpa using hrepr)
  have hlen : ((grid.map f).filterMap id).length = grid.length := by
    have := congrArg List.length hrepr
    simp only [List.length_map] at this
    exact this.symm
  have hidx : npArgmax (grid.map f) = argmaxQ ((grid.map f).filterMap id) :=
    npArgmax_map_eq_argmax f grid hdef
  have hlt : argmaxQ ((grid.map f).filterMap id) < ((grid.map f).filterMap id).length :=
    argmaxQ_lt_length _ hvne
  have hltg : npArgmax (grid.map f) < grid.length := by
    rw [hidx, ← hlen]
    exact hlt
  have key : ∀ i, i < grid.length → f (grid.getD i 0) = some (((grid.map f).filterMap id).getD i 0) := by
    intro i hi
    rw [← map_getD_eq f grid i hi]
    conv_lhs => rw [hrepr]
    exact map_some_getD_eq _ i (by rw [hlen]; exact hi)
  refine ⟨hltg, ?_, ?_⟩
  · rw [List.getD_eq_getElem grid 0 hltg]
    exact List.getElem_mem hltg
  · intro s hs
    obtain ⟨j, hj, rfl⟩ := List.mem_iff_getElem.mp hs
    have hsj : grid[j] = grid.getD j 0 := (List.getD_eq_getElem grid 0 hj).symm
    rw [hsj, key j hj, key (npArgmax (grid.map f)) hltg]
    simp only [Option.getD_some]
    have hmax : ((grid.map f).filterMap id).getD (npArgmax (grid.map f)) 0 =
        maxQ ((grid.map f).filterMap id) := by
      rw [hidx]
      exact getD_argmaxQ _ hvne
    rw [hmax]
    exact le_maxQ _ _ (getD_mem_of_lt _ j (by rw [hlen]; exact hj))

/-- Claim C5: the optimizer returns the candidate λ of the grid whose mean
cross-validation score is maximal (numpy argmax picks the first maximiser),
provided the fold scores are defined (some fold survives the monotonicity
skip — the skip condition does not depend on λ); and the stability warning
fires exactly when the chosen λ's score dispersion exceeds the threshold
(squared standard deviation above `1/100`, i.e. std above `0.1`), while the
same chosen λ is returned whether or not the warning fires. -/
theorem find_optimal_smoothing_argmax (mk : SplineMaker) (grid X y : List ℚ) (k : Nat)
    (hne : grid ≠ [])
    (hdef : ∀ s ∈ grid, ((cross_validate mk X y s k).1).isSome = true) :
    (find_optimal_smoothing mk grid X y k).1 ∈ grid ∧
    (∀ s ∈ grid,
      ((cross_validate mk X y s k).1).getD 0 ≤
        ((cross_validate mk X y (find_optimal_smoothing mk grid X y k).1 k).1).getD 0) ∧
    ((find_optimal_smoothing mk grid X y k).2 = true ↔
      ∃ v, (cross_validate mk X y (find_optimal_smoothing mk grid X y k).1 k).2 = some v ∧
        1 / 100 < v) := by
  obtain ⟨hlt, hmem, hle⟩ :=
    argmax_map_mem_and_le (fun s => (cross_validate mk X y s k).1) grid hne hdef
  have hfst : (find_optimal_smoothing mk grid X y k).1 =
      grid.getD (npArgmax (grid.map (fun s => (cross_validate mk X y s k).1))) 0 := rfl
  refine ⟨by rw [hfst]; exact hmem, by rw [hfst]; exact hle, ?_⟩
  have hsnd : (find_optimal_smoothing mk grid X y k).2 = stabilityWarn mk grid X y k := rfl
  rw [hsnd, hfst]
  unfold stabilityWarn
  have hstds : cvStds mk grid X y k = grid.map (fun s => (cross_validate mk X y s k).2) := rfl
  have hbi : bestIdx mk grid X y k =
      npArgmax (grid.map (fun s => (cross_validate mk X y s k).1)) := rfl
  rw [hstds, hbi, map_getD_eq _ grid _ hlt]
  cases hg : (cross_validate mk X y
      (grid.getD (npArgmax (grid.map (fun s => (cross_validate mk X y s k).1))) 0) k).2 with
  | none => simp
  | some v => simp [decide_eq_true_iff]

/-- Claim C5 (witness): the argmax property applied at a concrete grid,
dataset and candidate. -/
theorem find_optimal_smoothing_argmax_witness :
    ((cross_validate mkZero [0, 1, 2, 3] [0, 1, 2, 3] 2 2).1).getD 0 ≤
      ((cross_validate mkZero [0, 1, 2, 3] [0, 1, 2, 3]
        (find_optimal_smoothing mkZero [1, 2] [0, 1, 2, 3] [0, 1, 2, 3] 2).1 2).1).getD 0 :=
  (find_optimal_smoothing_argmax mkZero [1, 2] [0, 1, 2, 3] [0, 1, 2, 3] 2
    (by decide) (by decide)).2.1 2 (by decide)
